import Mathlib

/-! airsensor-mqtt: a verification development

A shallow embedding of `airsensor.c` (and of the pure replicas in
`tests/test_airsensor.c`).  Pure expressions become functions; the stateful
`main` becomes a function from the answers of the outside world (USB stack,
broker client, clock) to the sequence of side effects the process performs.
-/

namespace AirSensor

/-! ## Bytes, buffers and C strings -/

/-- One `char` of a buffer, read as an unsigned byte. -/
abbrev Byte := Fin 256

/-- A C string without its terminating NUL, one `Char` per `char`. -/
abbrev CStr := List Char

/-- Byte order of the host the program runs on. -/
inductive Endian
  | little
  | big
  deriving DecidableEq, Repr

/-- The value of `buf[i]` as an unsigned byte (the buffer in `main` is
`char buf[1000]`, every index used by the program is inside it). -/
def byteAt (buf : List Byte) (i : Nat) : Nat := (buf.getD i 0).val

/-! ## Decoder and validator -/

/-- The effect of `memcpy(&iresult, buf+2, 2)`: the value of the
`unsigned short` whose object representation is the two bytes `b0`, `b1`
(in memory order), on a host of the given byte order. -/
def memcpy_u16 (host : Endian) (b0 b1 : Nat) : Nat :=
  match host with
  | .little => b0 + 256 * b1
  | .big => 256 * b0 + b1

/-- The byte swap of a 16-bit value, as `bswap_16` of `<byteswap.h>`. -/
def bswap_16 (x : Nat) : Nat := ((x >>> 8) &&& 0xff) ||| ((x &&& 0xff) <<< 8)

/-- The libc conversion `le16toh` of `<endian.h>`: the identity on a
little-endian host and a byte swap on a big-endian host. -/
def le16toh (host : Endian) (x : Nat) : Nat :=
  match host with
  | .little => x
  | .big => bswap_16 x

/-- The decode of `main` (lines 283-284):
`memcpy(&iresult,buf+2,2); voc = le16toh(iresult);`. -/
def decode (host : Endian) (buf : List Byte) : Nat :=
  le16toh host (memcpy_u16 host (byteAt buf 2) (byteAt buf 3))

/-- The test replica `parse_voc_from_buf`:
`return (unsigned short)buf[2] | ((unsigned short)buf[3] << 8);`
with the conversion of the result to `unsigned short`. -/
def parse_voc_from_buf (buf : List Byte) : Nat :=
  (byteAt buf 2 ||| (byteAt buf 3 <<< 8)) % 65536

/-- The range check of `main` (line 299) and of the test replica
`voc_in_range`: `voc >= 450 && voc <= 15001`. -/
def voc_in_range (voc : Nat) : Bool := decide (voc ≥ 450) && decide (voc ≤ 15001)

/-! ## Formatting -/

/-- The text `printf` produces for `%d` and an `int` argument. -/
def fmt_d (i : Int) : CStr :=
  match i with
  | .ofNat n => Nat.toDigits 10 n
  | .negSucc n => '-' :: Nat.toDigits 10 (n + 1)

/-- The C string left in `dst` by `snprintf(dst, size, ...)` when the
complete formatted text is `text`: at most `size - 1` characters of it. -/
def snprintf (size : Nat) (text : CStr) : CStr := text.take (size - 1)

/-- The test replica `build_mqtt_address`:
`snprintf(address, size, "tcp://%s:%s", host, port);`. -/
def build_mqtt_address (size : Nat) (host port : CStr) : CStr :=
  snprintf size ("tcp://".toList ++ host ++ ":".toList ++ port)

/-- The broker address of `main` (lines 91-100): the two environment
variables (`none` when unset) with their defaults, joined into
`char address[256]`. -/
def mqtt_address (brokername portnumber : Option CStr) : CStr :=
  let brokername := brokername.getD "127.0.0.1".toList
  let portnumber := portnumber.getD "1883".toList
  snprintf 256 ("tcp://".toList ++ brokername ++ ":".toList ++ portnumber)

/-! ## The outside world -/

/-- A device as `find_device` sees it: the two identifiers of its
descriptor, and its number on the bus to tell devices apart. -/
structure usb_device where
  idVendor : Nat
  idProduct : Nat
  devnum : Nat
  deriving DecidableEq, Repr

/-- A bus with its list of devices (`bus->devices`, in `next` order). -/
structure usb_bus where
  devices : List usb_device
  deriving DecidableEq, Repr

/-- The answer of one `usb_interrupt_read(devh, 0x81, buf, 16, 1000)`: the
returned code and the bytes the call stored at the start of `buf`. -/
structure UsbRead where
  ret : Int
  data : List Byte
  deriving DecidableEq, Repr

/-- The two termination signals `main` installs a handler for. -/
inductive Signal
  | SIGTERM
  | SIGINT
  deriving DecidableEq, Repr

/-- The side effects of the process, in the order it performs them. -/
inductive Event
  /-- a call `printout(str, value)`: one time-stamped line on standard output -/
  | printout (str : CStr) (value : Int)
  /-- the `printf` of the date and time header of the cycle started at time `t` -/
  | stamp (t : Nat)
  /-- any other `printf`, with the text it writes to standard output -/
  | printf (text : CStr)
  | MQTTClient_create (address clientid : CStr)
  | MQTTClient_connect
  | usb_init
  /-- one enumeration: `usb_find_busses(); usb_find_devices(); find_device(..)` -/
  | enumerate
  | sleep (seconds : Nat)
  | usb_open (dev : usb_device)
  /-- the call `signal(sig, release_usb_device)` -/
  | signal (sig : Signal)
  | usb_get_driver_np
  | usb_detach_kernel_driver_np
  | usb_claim_interface
  | usb_interrupt_write (data : List Byte)
  | usb_interrupt_read (answer : UsbRead)
  | usb_release_interface
  | usb_close
  | MQTTClient_publishMessage (topic payload : CStr) (qos retained : Nat)
  | MQTTClient_waitForCompletion (token : Int) (timeout : Nat)
  | MQTTClient_disconnect (timeout : Nat)
  | MQTTClient_destroy
  | exit (status : Int)
  /-- control reaches the closing brace of `main` -/
  | main_returns
  deriving DecidableEq, Repr

/-- What the outside world answers during one pass of the poll loop. -/
structure CycleInput where
  /-- the value of `time(NULL)` at the top of the loop body -/
  t : Nat
  /-- return code of `usb_interrupt_write` -/
  write_ret : Int
  /-- the response read (line 257) -/
  read1 : UsbRead
  /-- the second read (line 277), performed only when the first returned 0 -/
  read2 : UsbRead
  /-- the flush read (line 291) -/
  flush : UsbRead
  /-- the delivery token set by `MQTTClient_publishMessage` -/
  token : Int
  /-- return code of `MQTTClient_waitForCompletion` -/
  wait_rc : Int
  deriving DecidableEq, Repr

/-- The command line flags and the environment of the process. -/
structure Config where
  host : Endian
  debug : Bool
  print_voc_only : Bool
  one_read : Bool
  MQTT_BROKERNAME : Option CStr
  MQTT_PORT : Option CStr
  MQTT_CLIENTID : Option CStr
  MQTT_TOPIC : Option CStr

/-- What the outside world answers during one run of `main`. -/
structure World where
  /-- return code of `MQTTClient_connect` -/
  connect_rc : Int
  /-- the busses seen by each enumeration, first attempt first -/
  scans : List (List usb_bus)
  /-- whether `usb_open` returns a handle -/
  open_ok : Bool
  /-- return code of `usb_get_driver_np` -/
  driver_ret : Int
  /-- return code of `usb_claim_interface` -/
  claim_ret : Int
  /-- contents of `buf` when the first read is made -/
  buf : List Byte
  /-- the read that drains stale data before the loop (line 232) -/
  drain : UsbRead
  /-- the answers for the passes of the poll loop, first pass first -/
  cycles : List CycleInput

def MQTTCLIENT_SUCCESS : Int := 0

def QOS : Nat := 1

def TIMEOUT : Nat := 10000

def EXIT_FAILURE : Int := 1

/-! ## Device lookup and acquisition -/

/-- The inner loop of `find_device`: the first device of one bus whose
descriptor carries the two identifiers. -/
def find_in_bus (vendor product : Nat) : List usb_device → Option usb_device
  | [] => none
  | dev :: rest =>
    if dev.idVendor = vendor ∧ dev.idProduct = product then some dev
    else find_in_bus vendor product rest

/-- The function `find_device` (lines 74-87): busses in order, the devices of
each bus in order, the first match is returned, `none` stands for `NULL`. -/
def find_device (vendor product : Nat) : List usb_bus → Option usb_device
  | [] => none
  | bus :: rest =>
    match find_in_bus vendor product bus.devices with
    | some dev => some dev
    | none => find_device vendor product rest

/-- A debug line: `if (debug == 1) printout(str, value);`. -/
def dbg (debug : Bool) (str : CStr) (value : Int) : List Event :=
  if debug then [.printout str value] else []

/-- How the acquisition loop ended. -/
inductive Acquired
  /-- left by `break` with the device found -/
  | found (dev : usb_device)
  /-- left by `exit(1)` after the tenth failure -/
  | failed
  /-- still looping when the recorded answers end -/
  | pending
  deriving DecidableEq, Repr

/-- The side effects of one failed attempt of the acquisition loop, up to
the `sleep(11)`. -/
def missed_attempt (debug : Bool) : List Event :=
  [.enumerate] ++ dbg debug "DEBUG: No device found, wait 10sec...".toList 0 ++ [.sleep 11]

/-- The `do .. while (1)` loop of `main` (lines 171-194), started with the
given value of `counter`; each pass consumes the result of one enumeration. -/
def acquire (debug : Bool) : Int → List (List usb_bus) → List Event × Acquired
  | _, [] => ([], .pending)
  | counter, scan :: rest =>
    match find_device 0x03eb 0x2013 scan with
    | some dev => ([.enumerate], .found dev)
    | none =>
      if counter + 1 = 10 then
        (missed_attempt debug ++
          [.printout "Error: Device not found".toList 0,
           .MQTTClient_disconnect 10000, .MQTTClient_destroy, .exit 1], .failed)
      else
        (missed_attempt debug ++ (acquire debug (counter + 1) rest).1,
          (acquire debug (counter + 1) rest).2)

/-! ## The poll loop -/

/-- The command frame copied into `buf` by `memcpy` (line 248). -/
def command_frame : List Byte :=
  [0x40, 0x68, 0x2a, 0x54, 0x52, 0x0a, 0x40, 0x40,
   0x40, 0x40, 0x40, 0x40, 0x40, 0x40, 0x40, 0x40]

/-- The buffer after a read stored `r.data` (at most 16 bytes) at its start. -/
def usb_read_into (buf : List Byte) (r : UsbRead) : List Byte :=
  r.data.take 16 ++ buf.drop (r.data.take 16).length

/-- The request and response part of the loop body (lines 245-281): write the
command, read the response, report an anomalous size, read once more when the
size was 0.  Returns the side effects and the buffer the decode will see. -/
def exchange (debug print_voc_only : Bool) (buf : List Byte) (c : CycleInput) :
    List Event × List Byte :=
  let buf0 := command_frame ++ buf.drop 16
  let ev0 :=
    dbg debug "DEBUG: Write data to device".toList 0 ++
    [.usb_interrupt_write (buf0.take 16)] ++
    dbg debug "DEBUG: Return code from USB write: ".toList c.write_ret ++
    dbg debug "DEBUG: Read USB".toList 0 ++
    [.usb_interrupt_read c.read1] ++
    dbg debug "DEBUG: Return code from USB read: ".toList c.read1.ret
  let buf1 := usb_read_into buf0 c.read1
  let ev1 :=
    if ¬ (c.read1.ret = 0 ∨ c.read1.ret = 16) then
      (if print_voc_only then [.printf "0\n".toList]
       else [.printout "ERROR: Invalid result code: ".toList c.read1.ret])
    else []
  if c.read1.ret = 0 then
    (ev0 ++ ev1 ++ dbg debug "DEBUG: Read USB".toList 0 ++
      [.sleep 1, .usb_interrupt_read c.read2] ++
      dbg debug "DEBUG: Return code from USB read: ".toList c.read2.ret,
     usb_read_into buf1 c.read2)
  else (ev0 ++ ev1, buf1)

/-- The reading of one pass: the decode (lines 283-284) of the buffer left by
the exchange. -/
def reading (cfg : Config) (buf : List Byte) (c : CycleInput) : Nat :=
  decode cfg.host (exchange cfg.debug cfg.print_voc_only buf c).2

/-- The text left in `char svoc[6]` by `snprintf(svoc, sizeof(svoc), "%d", voc)`. -/
def svoc (voc : Nat) : CStr := snprintf 6 (fmt_d voc)

/-- The topic: `MQTT_TOPIC` or its default. -/
def topicname (cfg : Config) : CStr := cfg.MQTT_TOPIC.getD "home/CO2/voc".toList

/-- The client identifier: `MQTT_CLIENTID` or its default. -/
def clientid (cfg : Config) : CStr := cfg.MQTT_CLIENTID.getD "airsensor".toList

/-- The range check and what follows it (lines 299-328) for the reading `voc`:
the output, and for a reading in range the publication and the wait for its
delivery.  Returns the side effects and the new value of `rc`. -/
def report (cfg : Config) (rc : Int) (c : CycleInput) (voc : Nat) : List Event × Int :=
  if voc_in_range voc then
    ((if cfg.print_voc_only then [.printf (fmt_d voc ++ "\n".toList)]
      else [.stamp c.t, .printf ("VOC: ".toList ++ fmt_d voc ++ ", RESULT: OK\n".toList)]) ++
     [.MQTTClient_publishMessage (topicname cfg) (svoc voc) QOS 0,
      .printf ("Waiting for up to ".toList ++ fmt_d (TIMEOUT / 1000 : Nat) ++
        " seconds for publication of ".toList ++ svoc voc ++
        "\non topic ".toList ++ topicname cfg ++
        " for client with ClientID: ".toList ++ clientid cfg ++ "\n".toList),
      .MQTTClient_waitForCompletion c.token TIMEOUT,
      .printf ("Message with delivery token ".toList ++ fmt_d c.token ++
        " delivered\n".toList)],
     c.wait_rc)
  else
    ((if cfg.print_voc_only then [.printf "0\n".toList]
      else [.stamp c.t,
            .printf ("VOC: ".toList ++ fmt_d voc ++
              ", RESULT: Error value out of range\n".toList)]),
     rc)

/-- The flush read between the decode and the range check (lines 285-294). -/
def flush_read (debug : Bool) (c : CycleInput) : List Event :=
  [.sleep 1] ++ dbg debug "DEBUG: Read USB [flush]".toList 0 ++
  [.usb_interrupt_read c.flush] ++
  dbg debug "DEBUG: Return code from USB read: ".toList c.flush.ret

/-- The side effects of one pass of the loop body, up to the test of
`one_read` (lines 239-328). -/
def cycle_events (cfg : Config) (rc : Int) (buf : List Byte) (c : CycleInput) : List Event :=
  (exchange cfg.debug cfg.print_voc_only buf c).1 ++ flush_read cfg.debug c ++
  (report cfg rc c (reading cfg buf c)).1

/-- The value of `rc` after one pass of the loop body. -/
def cycle_rc (cfg : Config) (rc : Int) (buf : List Byte) (c : CycleInput) : Int :=
  (report cfg rc c (reading cfg buf c)).2

/-- The buffer after one pass of the loop body. -/
def cycle_buf (cfg : Config) (buf : List Byte) (c : CycleInput) : List Byte :=
  usb_read_into (exchange cfg.debug cfg.print_voc_only buf c).2 c.flush

/-- The loop `while(rc==MQTTCLIENT_SUCCESS) { .. }` of `main` (lines 237-337)
and the end of `main` after it, on the recorded answers: each pass consumes
one `CycleInput`; when the answers end while the loop still runs the
sequence of side effects ends there. -/
def pollLoop (cfg : Config) : Int → List Byte → List CycleInput → List Event
  | rc, _, [] => if rc = MQTTCLIENT_SUCCESS then [] else [.main_returns]
  | rc, buf, c :: rest =>
    if rc = MQTTCLIENT_SUCCESS then
      cycle_events cfg rc buf c ++
        (if cfg.one_read then [.exit 0]
         else .sleep 30 :: pollLoop cfg (cycle_rc cfg rc buf c) (cycle_buf cfg buf c) rest)
    else [.main_returns]

/-! ## The whole program -/

/-- The signal handler `release_usb_device` (lines 65-72); `ret` is the code
returned by `usb_release_interface`. -/
def release_usb_device (ret : Int) : List Event :=
  [.usb_release_interface, .usb_close, .MQTTClient_disconnect 10000,
   .MQTTClient_destroy, .exit ret]

/-- The part of `main` after the device was found (lines 196-339). -/
def after_found (cfg : Config) (w : World) (dev : usb_device) : List Event :=
  dbg cfg.debug "DEBUG: USB device found".toList 0 ++ [.usb_open dev] ++
  if ¬ w.open_ok then
    [.printout "Error: Failed to open USB device".toList 0,
     .MQTTClient_disconnect 10000, .MQTTClient_destroy, .exit 1]
  else
    [.signal .SIGTERM, .signal .SIGINT, .usb_get_driver_np] ++
    (if w.driver_ret = 0 then [.usb_detach_kernel_driver_np] else []) ++
    [.usb_claim_interface] ++
    if w.claim_ret ≠ 0 then
      [.printout "Error: claim failed with error: ".toList w.claim_ret,
       .usb_close, .MQTTClient_disconnect 10000, .MQTTClient_destroy, .exit 1]
    else
      dbg cfg.debug "DEBUG: Read any remaining data from USB".toList 0 ++
      [.usb_interrupt_read w.drain] ++
      dbg cfg.debug "DEBUG: Return code from USB read: ".toList w.drain.ret ++
      pollLoop cfg w.connect_rc (usb_read_into w.buf w.drain) w.cycles

/-- The side effects of lines 159-167 of `main`: two debug lines and
`usb_init()`. -/
def usb_start (debug : Bool) : List Event :=
  dbg debug "DEBUG: Active".toList 0 ++ dbg debug "DEBUG: Init USB".toList 0 ++ [.usb_init]

/-- The side effects of `main` (lines 89-339) for the given flags,
environment and answers of the outside world.  The parsing of the command
line is taken as done (its result is `cfg`; the `-h` flag, which only prints
the usage and exits, is not part of the model). -/
def main (cfg : Config) (w : World) : List Event :=
  [.MQTTClient_create (mqtt_address cfg.MQTT_BROKERNAME cfg.MQTT_PORT) (clientid cfg),
   .MQTTClient_connect] ++
  if w.connect_rc ≠ MQTTCLIENT_SUCCESS then
    [.printf ("Failed to connect, return code ".toList ++ fmt_d w.connect_rc ++ "\n".toList),
     .exit EXIT_FAILURE]
  else
    usb_start cfg.debug ++ (acquire cfg.debug 0 w.scans).1 ++
    match (acquire cfg.debug 0 w.scans).2 with
    | .found dev => after_found cfg w dev
    | _ => []

/-! ## Termination signals -/

/-- One move of an execution with signals. -/
inductive Tick
  /-- the running code (the handler entered last, or `main`) performs its
  next side effect -/
  | step
  /-- the signal `sig` is delivered now; `ret` is the code
  `usb_release_interface` returns in the handler run this starts -/
  | deliver (sig : Signal) (ret : Int)
  deriving DecidableEq, Repr

/-- Whether the side effect ends the process. -/
def Event.ends : Event → Bool
  | .exit _ => true
  | .main_returns => true
  | _ => false

/-- The signals whose handler the side effect installs. -/
def Event.installs : Event → List Signal
  | .signal sig => [sig]
  | _ => []

/-- The side effects of an execution in which signals are delivered between
side effects.  `handlers` are the signals whose handler is installed,
`stack` the remaining side effects of the interrupted activations (innermost
first, `main` last).  A delivered signal with an installed handler starts
`release_usb_device` on top of the interrupted code; one without ends the
process (default disposition).  `exit` and the return of `main` end the
process.  Which deliveries can occur is decided by the system: a handler
installed with `signal` holds back at most the signal it is running for, so
the other signal can be delivered while it runs. -/
def execute : List Signal → List (List Event) → List Tick → List Event
  | _, _, [] => []
  | handlers, stack, .deliver sig ret :: ticks =>
    if sig ∈ handlers then execute handlers (release_usb_device ret :: stack) ticks
    else []
  | handlers, stack, .step :: ticks =>
    match stack with
    | [] => []
    | [] :: _ => []
    | (e :: frame) :: below =>
      if e.ends then [e]
      else e :: execute (e.installs ++ handlers) (frame :: below) ticks

/-- An execution of the program with signals. -/
def run (cfg : Config) (w : World) (ticks : List Tick) : List Event :=
  execute [] [main cfg w] ticks

/-! ## Observations on a sequence of side effects -/

/-- Whether the side effect is a publication. -/
def Event.isPublish : Event → Bool
  | .MQTTClient_publishMessage _ _ _ _ => true
  | _ => false

/-- The publications among the side effects, in order. -/
def publications (evs : List Event) : List Event := evs.filter Event.isPublish

/-- The answers of the reads among the side effects, in order. -/
def reads (evs : List Event) : List UsbRead :=
  evs.filterMap fun e =>
    match e with
    | .usb_interrupt_read r => some r
    | _ => none

/-- Whether the side effect writes to standard output. -/
def Event.writes_stdout : Event → Bool
  | .printout _ _ => true
  | .stamp _ => true
  | .printf _ => true
  | _ => false

/-- The writes to standard output among the side effects, in order. -/
def stdout_writes (evs : List Event) : List Event := evs.filter Event.writes_stdout

/-- Whether the side effect is the write of a command frame, which starts a
pass of the poll loop. -/
def Event.isWrite : Event → Bool
  | .usb_interrupt_write _ => true
  | _ => false

/-- The number of passes of the poll loop started in the side effects. -/
def cycles_started (evs : List Event) : Nat := (evs.filter Event.isWrite).length

/-- Whether the side effect closes the device handle or destroys the broker
client. -/
def Event.releases : Event → Bool
  | .usb_close => true
  | .MQTTClient_destroy => true
  | _ => false

/-- Whether the side effect installs a signal handler. -/
def Event.isSignal : Event → Bool
  | .signal _ => true
  | _ => false

/-- Whether the device carries vendor id `0x03eb` and product id `0x2013`. -/
def is_sensor (dev : usb_device) : Bool :=
  decide (dev.idVendor = 0x03eb) && decide (dev.idProduct = 0x2013)

/-- The first sensor in bus order, then device order: the devices of all
busses put in one list, searched from the front. -/
def first_match (busses : List usb_bus) : Option usb_device :=
  (busses.flatMap usb_bus.devices).find? is_sensor

/-! ## Sample inputs -/

/-- Flags `-v` only, little-endian host, no environment variable set. -/
def cfg_voc_only : Config := ⟨.little, false, true, false, none, none, none, none⟩

/-- No flag, little-endian host, no environment variable set. -/
def cfg_plain : Config := ⟨.little, false, false, false, none, none, none, none⟩

/-- The sensor on its bus. -/
def sensor : usb_device := ⟨0x03eb, 0x2013, 4⟩

/-- Another device. -/
def keyboard : usb_device := ⟨0x046d, 0xc31c, 2⟩

/-- A response frame with `0x0B, 0x02` at offsets 2 and 3, zero elsewhere. -/
def frame_523 : List Byte := [0, 0, 0x0B, 0x02, 0, 0, 0, 0, 0, 0, 0, 0, 0, 0, 0, 0]

/-- A response frame with `0x0B, 0x02` at offsets 2 and 3, `0xFF` elsewhere. -/
def frame_523_ff : List Byte :=
  [0xFF, 0xFF, 0x0B, 0x02, 0xFF, 0xFF, 0xFF, 0xFF, 0xFF, 0xFF, 0xFF, 0xFF, 0xFF, 0xFF, 0xFF, 0xFF]

/-- A response frame that decodes to 16000 (`0x3E80`). -/
def frame_16000 : List Byte := [0, 0, 0x80, 0x3E, 0, 0, 0, 0, 0, 0, 0, 0, 0, 0, 0, 0]

/-- A read that timed out and stored nothing. -/
def read_timeout : UsbRead := ⟨-110, []⟩

/-- A pass in which the sensor answers 523 at once and the delivery is
confirmed. -/
def cycle_523 : CycleInput := ⟨0, 16, ⟨16, frame_523⟩, read_timeout, read_timeout, 7, 0⟩

/-- A pass in which the sensor answers 16000. -/
def cycle_16000 : CycleInput := ⟨0, 16, ⟨16, frame_16000⟩, read_timeout, read_timeout, 7, 0⟩

/-- A pass in which the first read reports size 0 and the second read
brings the frame. -/
def cycle_retry : CycleInput := ⟨0, 16, ⟨0, []⟩, ⟨16, frame_523⟩, read_timeout, 7, 0⟩

/-- A pass in which the sensor answers 523 and the wait for delivery ends
with `MQTTCLIENT_FAILURE` (-1). -/
def cycle_unconfirmed : CycleInput :=
  ⟨0, 16, ⟨16, frame_523⟩, read_timeout, read_timeout, 7, -1⟩

/-- A world in which the sensor is found at once, opened and claimed. -/
def world_ok : World := ⟨0, [[⟨[keyboard, sensor]⟩]], true, -1, 0, [], read_timeout, [cycle_523]⟩

/-- A world in which the sensor is found and opened but the claim of
interface 0 fails with `-EBUSY`. -/
def world_busy : World := ⟨0, [[⟨[keyboard, sensor]⟩]], true, -1, -16, [], read_timeout, []⟩

/-- A world in which the first ten enumerations see the keyboard only. -/
def world_absent : World :=
  ⟨0, List.replicate 10 [⟨[keyboard]⟩], true, -1, 0, [], read_timeout, []⟩

/-! ## Properties of the decoder and of the validator -/

theorem byteAt_lt (buf : List Byte) (i : Nat) : byteAt buf i < 256 := (buf.getD i 0).isLt

theorem or_shl8 (lo hi : Nat) (h : lo < 256) : lo ||| (hi <<< 8) = lo + 256 * hi := by
  have h2 : lo < 2 ^ 8 := by simpa using h
  have := Nat.mul_add_lt_is_or h2 hi
  rw [Nat.shiftLeft_eq, Nat.or_comm, Nat.mul_comm hi]
  norm_num at this ⊢
  omega

theorem and_ff (x : Nat) : x &&& 0xff = x % 256 := by
  have := Nat.and_pow_two_sub_one_eq_mod x 8
  simpa using this

theorem bswap_16_spec (hi lo : Nat) (h1 : hi < 256) (h2 : lo < 256) :
    bswap_16 (256 * hi + lo) = hi + 256 * lo := by
  unfold bswap_16
  have e1 : (256 * hi + lo) >>> 8 = hi := by
    rw [Nat.shiftRight_eq_div_pow]; norm_num; omega
  rw [e1, and_ff, and_ff, or_shl8 _ _ (Nat.mod_lt _ (by norm_num))]
  omega

/-- On either host the decode is the little-endian value of bytes 2 and 3. -/
theorem decode_eq (host : Endian) (buf : List Byte) :
    decode host buf = byteAt buf 2 + 256 * byteAt buf 3 := by
  cases host
  · rfl
  · simp only [decode, le16toh, memcpy_u16]
    exact bswap_16_spec _ _ (byteAt_lt _ _) (byteAt_lt _ _)

theorem decode_lt (host : Endian) (buf : List Byte) : decode host buf < 65536 := by
  have h2 := byteAt_lt buf 2
  have h3 := byteAt_lt buf 3
  rw [decode_eq]; omega

theorem parse_voc_from_buf_eq (buf : List Byte) :
    parse_voc_from_buf buf = byteAt buf 2 + 256 * byteAt buf 3 := by
  have h2 := byteAt_lt buf 2
  have h3 := byteAt_lt buf 3
  unfold parse_voc_from_buf
  rw [or_shl8 _ _ h2]
  omega

theorem voc_in_range_eq (v : Nat) : voc_in_range v = true ↔ 450 ≤ v ∧ v ≤ 15001 := by
  simp [voc_in_range]

/-- C1: for every unsigned 16-bit reading `v` the validity check of the poll
loop accepts `v` if and only if `450 ≤ v ≤ 15001`; 449 and 15002 are
rejected, 450 and 15001 are accepted. -/
theorem voc_in_range_iff (v : Nat) (hv : v < 65536) :
    (voc_in_range v = true ↔ 450 ≤ v ∧ v ≤ 15001) ∧
    voc_in_range 449 = false ∧ voc_in_range 450 = true ∧
    voc_in_range 15001 = true ∧ voc_in_range 15002 = false := by
  have _ := hv
  exact ⟨voc_in_range_eq v, by decide, by decide, by decide, by decide⟩

theorem voc_in_range_iff_witness :
    (2000 < 65536) ∧
    ((voc_in_range 2000 = true ↔ 450 ≤ 2000 ∧ 2000 ≤ 15001) ∧
      voc_in_range 449 = false ∧ voc_in_range 450 = true ∧
      voc_in_range 15001 = true ∧ voc_in_range 15002 = false) :=
  ⟨by decide, voc_in_range_iff 2000 (by decide)⟩

/-- C2: for every 16-bit value `v` and every 16-byte frame whose byte 2 is
`v & 0xFF` and whose byte 3 is `v >> 8`, the decode of `main` (copy of bytes
2-3 into a 16-bit integer, then `le16toh`) yields `v` on a little-endian and
on a big-endian host alike, and it equals the test replica
`buf[2] | (buf[3] << 8)`. -/
theorem decode_roundtrip (host : Endian) (v : Nat) (frame : List Byte)
    (hv : v < 65536) (hlen : frame.length = 16)
    (h2 : byteAt frame 2 = v &&& 0xFF) (h3 : byteAt frame 3 = v >>> 8) :
    decode host frame = v ∧ decode host frame = parse_voc_from_buf frame := by
  have _ := hlen
  have _ := hv
  refine ⟨?_, ?_⟩
  · rw [decode_eq, h2, h3, and_ff, Nat.shiftRight_eq_div_pow]
    norm_num
    omega
  · rw [decode_eq, parse_voc_from_buf_eq]

theorem decode_roundtrip_witness :
    (523 < 65536 ∧ frame_523.length = 16 ∧
      byteAt frame_523 2 = 523 &&& 0xFF ∧ byteAt frame_523 3 = 523 >>> 8) ∧
    (decode .big frame_523 = 523 ∧ decode .big frame_523 = parse_voc_from_buf frame_523) :=
  ⟨⟨by decide, by decide, by decide, by decide⟩,
   decode_roundtrip .big 523 frame_523 (by decide) (by decide) (by decide) (by decide)⟩

/-- C9: two 16-byte frames that agree on bytes 2 and 3 decode to the same
reading; so replacing the byte at any offset other than 2 and 3 leaves the
decoded reading unchanged. -/
theorem decode_depends_on_bytes_2_3 (host : Endian) (f g : List Byte)
    (hf : f.length = 16) (hg : g.length = 16)
    (h2 : f.getD 2 0 = g.getD 2 0) (h3 : f.getD 3 0 = g.getD 3 0) :
    decode host f = decode host g ∧
    ∀ (i : Nat) (b : Byte), i ≠ 2 → i ≠ 3 → decode host (f.set i b) = decode host f := by
  have _ := hf
  have _ := hg
  refine ⟨?_, ?_⟩
  · simp only [decode_eq, byteAt, h2, h3]
  · intro i b hi2 hi3
    have e2 : (f.set i b).getD 2 0 = f.getD 2 0 := by
      simp [List.getD_eq_getElem?_getD, List.getElem?_set_ne hi2]
    have e3 : (f.set i b).getD 3 0 = f.getD 3 0 := by
      simp [List.getD_eq_getElem?_getD, List.getElem?_set_ne hi3]
    simp only [decode_eq, byteAt, e2, e3]

theorem decode_depends_on_bytes_2_3_witness :
    (frame_523_ff.length = 16 ∧ frame_523.length = 16 ∧
      frame_523_ff.getD 2 0 = frame_523.getD 2 0 ∧
      frame_523_ff.getD 3 0 = frame_523.getD 3 0) ∧
    decode .little frame_523_ff = decode .little frame_523 ∧
    decode .little frame_523 = 523 :=
  ⟨⟨by decide, by decide, by decide, by decide⟩,
   (decode_depends_on_bytes_2_3 .little frame_523_ff frame_523
      (by decide) (by decide) (by decide) (by decide)).1,
   by decide⟩

/-! ## Properties of one pass of the poll loop -/

theorem fmt_d_nat (n : Nat) : fmt_d (n : Int) = Nat.toDigits 10 n := rfl

theorem toDigits_length_le_5 (n : Nat) (h : n < 100000) : (Nat.toDigits 10 n).length ≤ 5 :=
  Nat.toDigitsCore_length 10 (by decide) (n + 1) n 5 (by simpa using h) (by decide)

theorem svoc_eq (voc : Nat) (h : voc < 100000) : svoc voc = (Nat.repr voc).toList := by
  unfold svoc snprintf
  rw [fmt_d_nat]
  exact List.take_of_length_le (toDigits_length_le_5 voc h)

theorem publications_append (a b : List Event) :
    publications (a ++ b) = publications a ++ publications b := List.filter_append a b

theorem publications_dbg (d : Bool) (s : CStr) (v : Int) : publications (dbg d s v) = [] := by
  cases d <;> rfl

theorem publications_exchange (d p : Bool) (buf : List Byte) (c : CycleInput) :
    publications (exchange d p buf c).1 = [] := by
  simp only [exchange]
  cases d <;> cases p <;> split_ifs <;> rfl

theorem publications_flush_read (d : Bool) (c : CycleInput) :
    publications (flush_read d c) = [] := by
  cases d <;> rfl

theorem publications_report (cfg : Config) (rc : Int) (c : CycleInput) (voc : Nat) :
    publications (report cfg rc c voc).1 =
      if voc_in_range voc then [.MQTTClient_publishMessage (topicname cfg) (svoc voc) QOS 0]
      else [] := by
  unfold report
  split <;> cases cfg.print_voc_only <;> rfl

theorem reading_lt (cfg : Config) (buf : List Byte) (c : CycleInput) :
    reading cfg buf c < 65536 := decode_lt _ _

theorem publications_cycle (cfg : Config) (rc : Int) (buf : List Byte) (c : CycleInput) :
    publications (cycle_events cfg rc buf c) =
      if 450 ≤ reading cfg buf c ∧ reading cfg buf c ≤ 15001 then
        [.MQTTClient_publishMessage (topicname cfg) (Nat.repr (reading cfg buf c)).toList 1 0]
      else [] := by
  have hlt := reading_lt cfg buf c
  unfold cycle_events
  rw [publications_append, publications_append, publications_exchange,
    publications_flush_read, publications_report]
  by_cases h : 450 ≤ reading cfg buf c ∧ reading cfg buf c ≤ 15001
  · rw [if_pos h, if_pos ((voc_in_range_eq _).2 h), svoc_eq _ (by omega)]
    rfl
  · rw [if_neg h, if_neg (fun hv => h ((voc_in_range_eq _).1 hv))]
    rfl

/-- C3: in one pass of the poll loop the publisher is called if and only if
the decoded reading is inside [450, 15001]; when it is called, exactly one
message is published, with QoS 1 and not retained, whose payload is the
complete decimal representation of the reading (not cut by the 6-byte
buffer `svoc`). -/
theorem publish_iff_in_range (cfg : Config) (rc : Int) (buf : List Byte) (c : CycleInput) :
    publications (cycle_events cfg rc buf c) =
      if 450 ≤ reading cfg buf c ∧ reading cfg buf c ≤ 15001 then
        [.MQTTClient_publishMessage (topicname cfg) (Nat.repr (reading cfg buf c)).toList 1 0]
      else [] :=
  publications_cycle cfg rc buf c

theorem publish_iff_in_range_witness :
    publications (cycle_events cfg_plain 0 [] cycle_523) =
      [.MQTTClient_publishMessage "home/CO2/voc".toList "523".toList 1 0] ∧
    reading cfg_plain [] cycle_16000 = 16000 ∧
    publications (cycle_events cfg_plain 0 [] cycle_16000) = [] :=
  ⟨(publish_iff_in_range cfg_plain 0 [] cycle_523).trans (by decide),
   by decide,
   (publish_iff_in_range cfg_plain 0 [] cycle_16000).trans (by decide)⟩

theorem reads_append (a b : List Event) : reads (a ++ b) = reads a ++ reads b :=
  List.filterMap_append a b _

theorem reads_exchange (d p : Bool) (buf : List Byte) (c : CycleInput) :
    reads (exchange d p buf c).1 = if c.read1.ret = 0 then [c.read1, c.read2] else [c.read1] := by
  simp only [exchange]
  cases d <;> cases p <;> split_ifs <;> rfl

theorem buf_exchange (d p : Bool) (buf : List Byte) (c : CycleInput) :
    (exchange d p buf c).2 =
      if c.read1.ret = 0 then
        usb_read_into (usb_read_into (command_frame ++ buf.drop 16) c.read1) c.read2
      else usb_read_into (command_frame ++ buf.drop 16) c.read1 := by
  simp only [exchange]
  split_ifs <;> rfl

theorem reads_flush_read (d : Bool) (c : CycleInput) : reads (flush_read d c) = [c.flush] := by
  cases d <;> rfl

theorem reads_report (cfg : Config) (rc : Int) (c : CycleInput) (voc : Nat) :
    reads (report cfg rc c voc).1 = [] := by
  unfold report
  split <;> cases cfg.print_voc_only <;> rfl

/-- C5: if the first response read reports size 0, exactly one more read is
made before the decode and the reading is decoded from the buffer that read
left; if it reports any other size, no further read is made before the
decode.  The flush read is the last read of the pass, after the exchange,
and its answer changes neither the reading nor what is published. -/
theorem retry_read_rule (cfg : Config) (rc : Int) (buf : List Byte) (c : CycleInput) :
    (c.read1.ret = 0 →
      reads (exchange cfg.debug cfg.print_voc_only buf c).1 = [c.read1, c.read2] ∧
      reading cfg buf c =
        decode cfg.host
          (usb_read_into (usb_read_into (command_frame ++ buf.drop 16) c.read1) c.read2)) ∧
    (c.read1.ret ≠ 0 →
      reads (exchange cfg.debug cfg.print_voc_only buf c).1 = [c.read1] ∧
      reading cfg buf c = decode cfg.host (usb_read_into (command_frame ++ buf.drop 16) c.read1)) ∧
    reads (cycle_events cfg rc buf c) =
      reads (exchange cfg.debug cfg.print_voc_only buf c).1 ++ [c.flush] ∧
    ∀ f : UsbRead,
      reading cfg buf { c with flush := f } = reading cfg buf c ∧
      publications (cycle_events cfg rc buf { c with flush := f }) =
        publications (cycle_events cfg rc buf c) := by
  refine ⟨?_, ?_, ?_, ?_⟩
  · intro h
    rw [reads_exchange, reading, buf_exchange, if_pos h, if_pos h]
    exact ⟨rfl, rfl⟩
  · intro h
    rw [reads_exchange, reading, buf_exchange, if_neg h, if_neg h]
    exact ⟨rfl, rfl⟩
  · unfold cycle_events
    rw [reads_append, reads_append, reads_flush_read, reads_report, List.append_nil]
  · intro f
    have hr : reading cfg buf { c with flush := f } = reading cfg buf c := by
      simp only [reading, buf_exchange]
    refine ⟨hr, ?_⟩
    rw [publications_cycle, publications_cycle, hr]

theorem retry_read_rule_witness :
    reads (exchange false false [] cycle_retry).1 = [⟨0, []⟩, ⟨16, frame_523⟩] ∧
    reading cfg_plain [] cycle_retry = 523 ∧
    reads (exchange false false [] cycle_523).1 = [⟨16, frame_523⟩] ∧
    reads (cycle_events cfg_plain 0 [] cycle_retry) =
      [⟨0, []⟩, ⟨16, frame_523⟩, read_timeout] :=
  ⟨((retry_read_rule cfg_plain 0 [] cycle_retry).1 (by decide)).1,
   ((retry_read_rule cfg_plain 0 [] cycle_retry).1 (by decide)).2.trans (by decide),
   ((retry_read_rule cfg_plain 0 [] cycle_523).2.1 (by decide)).1,
   (retry_read_rule cfg_plain 0 [] cycle_retry).2.2.1.trans (by decide)⟩

/-- C10, evaluated: with `-v` and without `-d`, a pass that reads 523 writes
three texts to standard output: the reading, the line that announces the
wait for the publication, and the line with the delivery token. -/
theorem voc_only_output_523 :
    stdout_writes (cycle_events cfg_voc_only 0 [] cycle_523) =
      [.printf "523\n".toList,
       .printf ("Waiting for up to 10 seconds for publication of 523\n".toList ++
         "on topic home/CO2/voc for client with ClientID: airsensor\n".toList),
       .printf "Message with delivery token 7 delivered\n".toList] := by
  decide

theorem report_rc_in_range (cfg : Config) (rc : Int) (c : CycleInput) (voc : Nat)
    (h : 450 ≤ voc ∧ voc ≤ 15001) : (report cfg rc c voc).2 = c.wait_rc := by
  unfold report
  rw [if_pos ((voc_in_range_eq voc).2 h)]

theorem pollLoop_of_ne (cfg : Config) (rc : Int) (buf : List Byte) (cs : List CycleInput)
    (h : rc ≠ MQTTCLIENT_SUCCESS) : pollLoop cfg rc buf cs = [.main_returns] := by
  cases cs <;> simp [pollLoop, h]

/-- C4, as the code has it: in a pass (not in one-shot mode) whose wait for
the delivery confirmation ends without success, the process sleeps 30
seconds and then the loop condition `rc==MQTTCLIENT_SUCCESS` fails: no
further pass is made and control reaches the end of `main`. -/
theorem poll_loop_ends_after_failed_wait (cfg : Config) (buf : List Byte) (c : CycleInput)
    (rest : List CycleInput) (hone : cfg.one_read = false)
    (hvoc : 450 ≤ reading cfg buf c ∧ reading cfg buf c ≤ 15001)
    (hwait : c.wait_rc ≠ MQTTCLIENT_SUCCESS) :
    pollLoop cfg MQTTCLIENT_SUCCESS buf (c :: rest) =
      cycle_events cfg MQTTCLIENT_SUCCESS buf c ++ [.sleep 30, .main_returns] := by
  have hrc : cycle_rc cfg MQTTCLIENT_SUCCESS buf c ≠ MQTTCLIENT_SUCCESS := by
    unfold cycle_rc
    rw [report_rc_in_range _ _ _ _ hvoc]
    exact hwait
  simp only [pollLoop, hone, if_true, pollLoop_of_ne _ _ _ _ hrc]
  rfl

theorem poll_loop_ends_after_failed_wait_witness :
    (cfg_plain.one_read = false ∧
      (450 ≤ reading cfg_plain [] cycle_unconfirmed ∧
        reading cfg_plain [] cycle_unconfirmed ≤ 15001) ∧
      cycle_unconfirmed.wait_rc ≠ MQTTCLIENT_SUCCESS) ∧
    pollLoop cfg_plain MQTTCLIENT_SUCCESS [] [cycle_unconfirmed, cycle_523] =
      cycle_events cfg_plain MQTTCLIENT_SUCCESS [] cycle_unconfirmed ++
        [.sleep 30, .main_returns] :=
  ⟨⟨by decide, by decide, by decide⟩,
   poll_loop_ends_after_failed_wait cfg_plain [] cycle_unconfirmed [cycle_523]
     (by decide) (by decide) (by decide)⟩

/-- C4 refuted as stated: two passes are on offer, the wait of the first one
ends with `MQTTCLIENT_FAILURE`; after the 30 second sleep the process makes
no second pass (one command frame written in all) and `main` returns, while
the same run with a confirmed delivery makes the second pass. -/
theorem poll_loop_aborts_after_failed_wait :
    cycles_started (pollLoop cfg_plain MQTTCLIENT_SUCCESS [] [cycle_unconfirmed, cycle_523]) = 1 ∧
    (pollLoop cfg_plain MQTTCLIENT_SUCCESS [] [cycle_unconfirmed, cycle_523]).getLast? =
      some .main_returns ∧
    cycles_started (pollLoop cfg_plain MQTTCLIENT_SUCCESS [] [cycle_523, cycle_523]) = 2 := by
  decide

/-! ## Properties of the broker address -/

theorem mqtt_address_eq_take (host port : CStr) :
    mqtt_address (some host) (some port) =
      ("tcp://".toList ++ host ++ ":".toList ++ port).take 255 := rfl

/-- C8, as the code has it: for non-empty host and port strings whose join
fits the 256-byte buffer `address` (7 + length of host + length of port is
at most 255), the broker address built at startup is
`"tcp://" + host + ":" + port`; so is the address built by the test replica
for that buffer size. -/
theorem mqtt_address_join (host port : CStr) (hhost : host ≠ []) (hport : port ≠ [])
    (hfit : 7 + host.length + port.length ≤ 255) :
    mqtt_address (some host) (some port) = "tcp://".toList ++ host ++ ":".toList ++ port ∧
    build_mqtt_address 256 host port = "tcp://".toList ++ host ++ ":".toList ++ port := by
  have _ := hhost
  have _ := hport
  have hlen : ("tcp://".toList ++ host ++ ":".toList ++ port).length ≤ 255 := by
    have h1 : "tcp://".toList.length = 6 := by decide
    have h2 : ":".toList.length = 1 := by decide
    simp only [List.length_append, h1, h2]
    omega
  exact ⟨List.take_of_length_le hlen, List.take_of_length_le hlen⟩

theorem mqtt_address_join_witness :
    ("127.0.0.1".toList ≠ [] ∧ "1883".toList ≠ [] ∧
      7 + "127.0.0.1".toList.length + "1883".toList.length ≤ 255) ∧
    mqtt_address (some "127.0.0.1".toList) (some "1883".toList) =
      "tcp://127.0.0.1:1883".toList ∧
    mqtt_address none none = "tcp://127.0.0.1:1883".toList :=
  ⟨⟨by decide, by decide, by decide⟩,
   (mqtt_address_join "127.0.0.1".toList "1883".toList (by decide) (by decide) (by decide)).1.trans
     (by decide),
   by decide⟩

/-- C8 refuted as stated: for a host name of 300 characters the address
built at startup is not the join, it has 255 characters only. -/
theorem mqtt_address_cut :
    mqtt_address (some (List.replicate 300 'a')) (some "1883".toList) ≠
      "tcp://".toList ++ List.replicate 300 'a' ++ ":".toList ++ "1883".toList ∧
    (mqtt_address (some (List.replicate 300 'a')) (some "1883".toList)).length = 255 := by
  have hl : (mqtt_address (some (List.replicate 300 'a')) (some "1883".toList)).length = 255 := by
    have h1 : "tcp://".toList.length = 6 := by decide
    have h2 : ":".toList.length = 1 := by decide
    have h3 : "1883".toList.length = 4 := by decide
    rw [mqtt_address_eq_take]
    simp only [List.length_take, List.length_append, List.length_replicate, h1, h2, h3]
    decide
  refine ⟨?_, hl⟩
  intro h
  have h1 : "tcp://".toList.length = 6 := by decide
  have h2 : ":".toList.length = 1 := by decide
  have h3 : "1883".toList.length = 4 := by decide
  have h4 := congrArg List.length h
  rw [hl] at h4
  simp only [List.length_append, List.length_replicate, h1, h2, h3] at h4
  omega

/-! ## Properties of the device acquisition -/

theorem find_in_bus_eq (devs : List usb_device) :
    find_in_bus 0x03eb 0x2013 devs = devs.find? is_sensor := by
  induction devs with
  | nil => rfl
  | cons dev rest ih =>
    by_cases h : dev.idVendor = 0x03eb ∧ dev.idProduct = 0x2013
    · have hs : is_sensor dev = true := by simp [is_sensor, h.1, h.2]
      simp only [find_in_bus, if_pos h, List.find?_cons, hs]
    · have hs : is_sensor dev = false := by
        simp only [is_sensor, Bool.and_eq_false_iff, decide_eq_false_iff_not]
        exact not_and_or.1 h
      simp only [find_in_bus, if_neg h, List.find?_cons, hs, ih]

/-- The lookup of `find_device` returns the first sensor in bus order, then
device order. -/
theorem find_device_eq_first_match (busses : List usb_bus) :
    find_device 0x03eb 0x2013 busses = first_match busses := by
  induction busses with
  | nil => rfl
  | cons bus rest ih =>
    unfold first_match at ih ⊢
    rw [List.flatMap_cons, List.find?_append, find_device, find_in_bus_eq, ih]
    cases List.find? is_sensor bus.devices <;> rfl

theorem acquire_found (debug : Bool) (counter : Int) (hit : List usb_bus)
    (rest : List (List usb_bus)) (dev : usb_device) (h : first_match hit = some dev) :
    acquire debug counter (hit :: rest) = ([.enumerate], .found dev) := by
  rw [← find_device_eq_first_match] at h
  simp only [acquire, h]

theorem acquire_missed (debug : Bool) (counter : Int) (miss : List usb_bus)
    (rest : List (List usb_bus)) (h : first_match miss = none) (hc : counter + 1 ≠ 10) :
    acquire debug counter (miss :: rest) =
      (missed_attempt debug ++ (acquire debug (counter + 1) rest).1,
       (acquire debug (counter + 1) rest).2) := by
  rw [← find_device_eq_first_match] at h
  simp only [acquire, h, if_neg hc]

theorem acquire_tenth (debug : Bool) (counter : Int) (miss : List usb_bus)
    (rest : List (List usb_bus)) (h : first_match miss = none) (hc : counter + 1 = 10) :
    acquire debug counter (miss :: rest) =
      (missed_attempt debug ++
        [.printout "Error: Device not found".toList 0,
         .MQTTClient_disconnect 10000, .MQTTClient_destroy, .exit 1], .failed) := by
  rw [← find_device_eq_first_match] at h
  simp only [acquire, h, if_pos hc]

/-- A run of failed attempts that stays below the tenth failure. -/
theorem acquire_misses (debug : Bool) (misses : List (List usb_bus))
    (rest : List (List usb_bus)) :
    ∀ counter : Int, 0 ≤ counter → counter + misses.length < 10 →
      (∀ s ∈ misses, first_match s = none) →
      acquire debug counter (misses ++ rest) =
        ((List.replicate misses.length (missed_attempt debug)).flatten ++
            (acquire debug (counter + misses.length) rest).1,
          (acquire debug (counter + misses.length) rest).2) := by
  induction misses with
  | nil => intro counter _ _ _; simp
  | cons miss more ih =>
    intro counter h0 hc hm
    have hlen : ((miss :: more).length : Int) = (more.length : Int) + 1 := by simp
    rw [hlen] at hc
    have e : counter + ((miss :: more).length : Int) = counter + 1 + (more.length : Int) := by
      rw [hlen]; ring
    rw [List.cons_append,
      acquire_missed debug counter miss (more ++ rest) (hm miss (List.mem_cons_self _ _))
        (by omega),
      ih (counter + 1) (by omega) (by omega)
        (fun s hs => hm s (List.mem_cons_of_mem _ hs)), e]
    simp [List.replicate_succ, List.append_assoc]

/-- A run of failed attempts that reaches the tenth failure. -/
theorem acquire_exhaust (debug : Bool) (misses : List (List usb_bus))
    (rest : List (List usb_bus)) :
    ∀ counter : Int, 0 ≤ counter → misses ≠ [] → counter + misses.length = 10 →
      (∀ s ∈ misses, first_match s = none) →
      acquire debug counter (misses ++ rest) =
        ((List.replicate misses.length (missed_attempt debug)).flatten ++
            [.printout "Error: Device not found".toList 0,
             .MQTTClient_disconnect 10000, .MQTTClient_destroy, .exit 1],
          .failed) := by
  induction misses with
  | nil => intro counter _ hne; exact absurd rfl hne
  | cons miss more ih =>
    intro counter h0 _ hc hm
    have hlen : ((miss :: more).length : Int) = (more.length : Int) + 1 := by simp
    rw [hlen] at hc
    have hmiss := hm miss (List.mem_cons_self _ _)
    by_cases hmore : more = []
    · subst hmore
      rw [List.cons_append, List.nil_append,
        acquire_tenth debug counter miss rest hmiss (by simpa using hc)]
      simp [List.replicate_succ]
    · have hpos : 0 < more.length := List.length_pos.2 hmore
      rw [List.cons_append,
        acquire_missed debug counter miss (more ++ rest) hmiss (by omega),
        ih (counter + 1) (by omega) hmore (by omega)
          (fun s hs => hm s (List.mem_cons_of_mem _ hs))]
      simp [List.replicate_succ, List.append_assoc]

theorem main_connected (cfg : Config) (w : World) (hconn : w.connect_rc = MQTTCLIENT_SUCCESS) :
    main cfg w =
      [.MQTTClient_create (mqtt_address cfg.MQTT_BROKERNAME cfg.MQTT_PORT) (clientid cfg),
       .MQTTClient_connect] ++
      (usb_start cfg.debug ++ (acquire cfg.debug 0 w.scans).1 ++
        match (acquire cfg.debug 0 w.scans).2 with
        | .found dev => after_found cfg w dev
        | _ => []) := by
  unfold main
  rw [if_neg (fun h => h hconn)]

/-- C6: when the broker is connected and none of the first ten enumerations
sees a device with vendor id 0x03eb and product id 0x2013, `main` makes
exactly ten enumerations, each followed by an 11 second sleep, then reports
the failure, disconnects and destroys the broker client and exits with code
1, and opens no device.  When the first enumeration that sees such a device
comes after fewer than ten failed ones, `main` goes on after one sleep per
failed enumeration with the first such device in bus order and device
order. -/
theorem acquire_contract (cfg : Config) (w : World)
    (hconn : w.connect_rc = MQTTCLIENT_SUCCESS) :
    (∀ misses rest : List (List usb_bus), w.scans = misses ++ rest → misses.length = 10 →
      (∀ s ∈ misses, first_match s = none) →
      main cfg w =
        [.MQTTClient_create (mqtt_address cfg.MQTT_BROKERNAME cfg.MQTT_PORT) (clientid cfg),
         .MQTTClient_connect] ++
        (usb_start cfg.debug ++
          (List.replicate 10 (missed_attempt cfg.debug)).flatten ++
          [.printout "Error: Device not found".toList 0,
           .MQTTClient_disconnect 10000, .MQTTClient_destroy, .exit 1]) ∧
      (main cfg w).count .enumerate = 10 ∧
      (main cfg w).count (.sleep 11) = 10 ∧
      ∀ dev, Event.usb_open dev ∉ main cfg w) ∧
    (∀ (misses : List (List usb_bus)) (hit : List usb_bus) (rest : List (List usb_bus))
        (dev : usb_device),
      w.scans = misses ++ hit :: rest → misses.length < 10 →
      (∀ s ∈ misses, first_match s = none) → first_match hit = some dev →
      main cfg w =
        [.MQTTClient_create (mqtt_address cfg.MQTT_BROKERNAME cfg.MQTT_PORT) (clientid cfg),
         .MQTTClient_connect] ++
        (usb_start cfg.debug ++
          ((List.replicate misses.length (missed_attempt cfg.debug)).flatten ++ [.enumerate]) ++
          after_found cfg w dev)) := by
  refine ⟨?_, ?_⟩
  · intro misses rest hs hlen hm
    have hne : misses ≠ [] := by
      intro h
      rw [h] at hlen
      simp at hlen
    have hacq := acquire_exhaust cfg.debug misses rest 0 (le_refl 0) hne
      (by rw [hlen]; rfl) hm
    rw [hlen] at hacq
    have hmain : main cfg w =
        [.MQTTClient_create (mqtt_address cfg.MQTT_BROKERNAME cfg.MQTT_PORT) (clientid cfg),
         .MQTTClient_connect] ++
        (usb_start cfg.debug ++
          (List.replicate 10 (missed_attempt cfg.debug)).flatten ++
          [.printout "Error: Device not found".toList 0,
           .MQTTClient_disconnect 10000, .MQTTClient_destroy, .exit 1]) := by
      rw [main_connected cfg w hconn, hs, hacq]
      simp
    refine ⟨hmain, ?_, ?_, ?_⟩
    · rw [hmain]
      cases cfg.debug <;> rfl
    · rw [hmain]
      cases cfg.debug <;> rfl
    · intro dev
      rw [hmain]
      cases cfg.debug <;> simp [usb_start, missed_attempt, dbg, List.replicate]
  · intro misses hit rest dev hs hlen hm hhit
    have hacq := acquire_misses cfg.debug misses (hit :: rest) 0 (le_refl 0)
      (by omega) hm
    rw [acquire_found cfg.debug _ hit rest dev hhit] at hacq
    rw [main_connected cfg w hconn, hs, hacq]

theorem acquire_contract_witness :
    (world_absent.connect_rc = MQTTCLIENT_SUCCESS ∧ world_ok.connect_rc = MQTTCLIENT_SUCCESS) ∧
    (main cfg_plain world_absent).count .enumerate = 10 ∧
    (main cfg_plain world_absent).count (.sleep 11) = 10 ∧
    (∀ dev, Event.usb_open dev ∉ main cfg_plain world_absent) ∧
    (main cfg_plain world_absent).getLast? = some (.exit 1) ∧
    Event.usb_open sensor ∈ main cfg_plain world_ok := by
  have h1 := (acquire_contract cfg_plain world_absent rfl).1 world_absent.scans []
    (List.append_nil _).symm (by decide) (by decide)
  have h2 := (acquire_contract cfg_plain world_ok rfl).2 [] [⟨[keyboard, sensor]⟩] [] sensor
    rfl (by decide) (by decide) (by decide)
  refine ⟨⟨rfl, rfl⟩, h1.2.1, h1.2.2.1, h1.2.2.2, ?_, ?_⟩
  · rw [h1.1]
    decide
  · rw [h2]
    decide

/-! ## Properties of the release on a termination signal -/

/-- The handler, once started and given five steps, runs to its `exit`. -/
theorem execute_handler (handlers : List Signal) (ret : Int) (stack : List (List Event))
    (m : Nat) :
    execute handlers (release_usb_device ret :: stack) (List.replicate (m + 5) .step) =
      release_usb_device ret := by
  simp [List.replicate_succ, execute, release_usb_device, Event.ends, Event.installs]

/-- The code runs undisturbed for `n` steps, then a signal whose handler is
installed by then is delivered. -/
theorem execute_steps_then_signal (sig : Signal) (ret : Int) (m : Nat)
    (below : List (List Event)) :
    ∀ (n : Nat) (evs : List Event) (handlers : List Signal),
      n ≤ evs.length → (∀ e ∈ evs.take n, e.ends = false) →
      (sig ∈ handlers ∨ Event.signal sig ∈ evs.take n) →
      execute handlers (evs :: below)
          (List.replicate n .step ++ .deliver sig ret :: List.replicate (m + 5) .step) =
        evs.take n ++ release_usb_device ret := by
  intro n
  induction n with
  | zero =>
    intro evs handlers _ _ hsig
    have hmem : sig ∈ handlers := by
      rcases hsig with h | h
      · exact h
      · simp at h
    simp only [List.replicate_zero, List.nil_append, List.take_zero]
    rw [execute, if_pos hmem, execute_handler]
  | succ n ih =>
    intro evs handlers hlen hends hsig
    cases evs with
    | nil => simp at hlen
    | cons e rest =>
      have he : e.ends = false := hends e (by simp)
      have hrest : ∀ x ∈ rest.take n, x.ends = false := fun x hx =>
        hends x (by simp [hx])
      have hsig2 : sig ∈ e.installs ++ handlers ∨ Event.signal sig ∈ rest.take n := by
        rcases hsig with h | h
        · exact Or.inl (List.mem_append_right _ h)
        · rw [List.take_succ_cons, List.mem_cons] at h
          rcases h with h | h
          · left
            rw [← h]
            simp [Event.installs]
          · exact Or.inr h
      rw [List.replicate_succ, List.cons_append, execute]
      simp only [he, Bool.false_eq_true, if_false, List.take_succ_cons, List.cons_append]
      rw [ih rest (e.installs ++ handlers) (by simpa using hlen) hrest hsig2]

theorem usb_start_quiet (d : Bool) :
    (usb_start d).all (fun e => !e.releases && !e.isSignal) = true := by
  cases d <;> rfl

theorem missed_attempt_quiet (d : Bool) :
    (missed_attempt d).all (fun e => !e.releases && !e.isSignal) = true := by
  cases d <;> rfl

/-- The acquisition loop installs no handler and closes no device; unless it
fails it does not destroy the broker client either. -/
theorem acquire_quiet (d : Bool) (scans : List (List usb_bus)) :
    ∀ counter : Int,
      (acquire d counter scans).1.all (fun e => !e.isSignal) = true ∧
      ((acquire d counter scans).2 ≠ .failed →
        (acquire d counter scans).1.all (fun e => !e.releases) = true) := by
  induction scans with
  | nil => intro counter; exact ⟨rfl, fun _ => rfl⟩
  | cons scan rest ih =>
    intro counter
    have hq := missed_attempt_quiet d
    rw [List.all_eq_true] at hq
    have hq1 : (missed_attempt d).all (fun e => !e.isSignal) = true := by
      rw [List.all_eq_true]
      intro e he
      have := hq e he
      simp only [Bool.and_eq_true] at this
      exact this.2
    have hq2 : (missed_attempt d).all (fun e => !e.releases) = true := by
      rw [List.all_eq_true]
      intro e he
      have := hq e he
      simp only [Bool.and_eq_true] at this
      exact this.1
    cases hf : find_device 0x03eb 0x2013 scan with
    | some dev =>
      simp only [acquire, hf]
      exact ⟨rfl, fun _ => rfl⟩
    | none =>
      by_cases hc : counter + 1 = 10
      · simp only [acquire, hf, if_pos hc]
        refine ⟨?_, fun h => absurd rfl h⟩
        rw [List.all_append, hq1]
        rfl
      · simp only [acquire, hf, if_neg hc]
        refine ⟨?_, fun h => ?_⟩
        · rw [List.all_append, hq1, (ih (counter + 1)).1]
          rfl
        · rw [List.all_append, hq2, (ih (counter + 1)).2 h]
          rfl

theorem cycle_events_quiet (cfg : Config) (rc : Int) (buf : List Byte) (c : CycleInput) :
    (cycle_events cfg rc buf c).all (fun e => !e.releases) = true := by
  have h1 : (exchange cfg.debug cfg.print_voc_only buf c).1.all (fun e => !e.releases) = true := by
    simp only [exchange]
    cases cfg.debug <;> cases cfg.print_voc_only <;> split_ifs <;> rfl
  have h2 : (flush_read cfg.debug c).all (fun e => !e.releases) = true := by
    cases cfg.debug <;> rfl
  have h3 : ∀ voc, (report cfg rc c voc).1.all (fun e => !e.releases) = true := by
    intro voc
    unfold report
    split <;> cases cfg.print_voc_only <;> rfl
  unfold cycle_events
  rw [List.all_append, List.all_append, h1, h2, h3]
  rfl

/-- The poll loop neither closes the device nor destroys the broker client. -/
theorem pollLoop_quiet (cfg : Config) (cs : List CycleInput) :
    ∀ (rc : Int) (buf : List Byte),
      (pollLoop cfg rc buf cs).all (fun e => !e.releases) = true := by
  induction cs with
  | nil =>
    intro rc buf
    unfold pollLoop
    split <;> rfl
  | cons c rest ih =>
    intro rc buf
    unfold pollLoop
    split
    · rw [List.all_append, cycle_events_quiet]
      split
      · rfl
      · rw [List.all_cons, ih]
        rfl
    · rfl

theorem not_mem_of_all_not_signal {l : List Event}
    (h : l.all (fun e => !e.isSignal) = true) (sig : Signal) : Event.signal sig ∉ l := by
  intro hm
  rw [List.all_eq_true] at h
  have := h _ hm
  simp [Event.isSignal] at this

theorem all_left_of_all_and {l : List Event}
    (h : l.all (fun e => !e.releases && !e.isSignal) = true) :
    l.all (fun e => !e.releases) = true := by
  rw [List.all_eq_true] at h ⊢
  intro e he
  have := h e he
  simp only [Bool.and_eq_true] at this
  exact this.1

theorem all_right_of_all_and {l : List Event}
    (h : l.all (fun e => !e.releases && !e.isSignal) = true) :
    l.all (fun e => !e.isSignal) = true := by
  rw [List.all_eq_true] at h ⊢
  intro e he
  have := h e he
  simp only [Bool.and_eq_true] at this
  exact this.2

theorem after_found_unopened (cfg : Config) (w : World) (dev : usb_device)
    (hopen : w.open_ok = false) :
    (after_found cfg w dev).all (fun e => !e.isSignal) = true := by
  have h1 : ¬ w.open_ok = true := by simp [hopen]
  unfold after_found
  rw [if_pos h1]
  cases cfg.debug <;> rfl

theorem after_found_claimed (cfg : Config) (w : World) (dev : usb_device)
    (hopen : w.open_ok = true) (hclaim : w.claim_ret = 0) :
    (after_found cfg w dev).all (fun e => !e.releases) = true := by
  have h1 : ¬ ¬ w.open_ok = true := not_not.2 hopen
  have h2 : ¬ w.claim_ret ≠ 0 := not_not.2 hclaim
  unfold after_found
  rw [if_neg h1, if_neg h2]
  simp only [List.all_append, pollLoop_quiet, Bool.and_true]
  cases cfg.debug <;> split_ifs <;> rfl

/-- Once a handler is installed in a run whose claim of interface 0
succeeds, `main` itself never closes the device and never destroys the broker
client. -/
theorem main_quiet_of_claimed (cfg : Config) (w : World) (sig : Signal)
    (hclaim : w.claim_ret = 0) (hinst : Event.signal sig ∈ main cfg w) :
    (main cfg w).all (fun e => !e.releases) = true := by
  have hq := acquire_quiet cfg.debug w.scans 0
  have hs := usb_start_quiet cfg.debug
  by_cases hconn : w.connect_rc = MQTTCLIENT_SUCCESS
  · rw [main_connected cfg w hconn] at hinst ⊢
    cases hacq : (acquire cfg.debug 0 w.scans).2 with
    | found dev =>
      rw [hacq] at hinst
      simp only [List.mem_append] at hinst
      cases hopen : w.open_ok with
      | true =>
        simp only [List.all_append, all_left_of_all_and hs,
          hq.2 (by rw [hacq]; exact fun h => nomatch h),
          after_found_claimed cfg w dev hopen hclaim]
        rfl
      | false =>
        exfalso
        rcases hinst with h | (h | h) | h
        · simp at h
        · exact not_mem_of_all_not_signal (all_right_of_all_and hs) sig h
        · exact not_mem_of_all_not_signal hq.1 sig h
        · exact not_mem_of_all_not_signal (after_found_unopened cfg w dev hopen) sig h
    | failed =>
      exfalso
      rw [hacq] at hinst
      simp only [List.mem_append] at hinst
      rcases hinst with h | (h | h) | h
      · simp at h
      · exact not_mem_of_all_not_signal (all_right_of_all_and hs) sig h
      · exact not_mem_of_all_not_signal hq.1 sig h
      · simp at h
    | pending =>
      exfalso
      rw [hacq] at hinst
      simp only [List.mem_append] at hinst
      rcases hinst with h | (h | h) | h
      · simp at h
      · exact not_mem_of_all_not_signal (all_right_of_all_and hs) sig h
      · exact not_mem_of_all_not_signal hq.1 sig h
      · simp at h
  · exfalso
    unfold main at hinst
    rw [if_pos hconn] at hinst
    simp at hinst

theorem count_eq_zero_of_all {l : List Event} (e : Event) (he : e.releases = true)
    (h : l.all (fun e => !e.releases) = true) : l.count e = 0 := by
  rw [List.count_eq_zero]
  intro hm
  rw [List.all_eq_true] at h
  have := h e hm
  simp [he] at this

/-- C7, as the code has it: in a run whose claim of interface 0 succeeds, if
exactly one termination signal is delivered, after its handler was installed
and while `main` is still running, then the release sequence (release
interface 0, close the device, disconnect the broker, destroy the broker
client, exit with the release status) runs once: the device is closed once
and the broker client is destroyed once. -/
theorem single_signal_releases_once (cfg : Config) (w : World) (sig : Signal) (ret : Int)
    (n m : Nat) (hclaim : w.claim_ret = 0) (hn : n ≤ (main cfg w).length)
    (hrun : ∀ e ∈ (main cfg w).take n, e.ends = false)
    (hinst : Event.signal sig ∈ (main cfg w).take n) :
    run cfg w (List.replicate n .step ++ .deliver sig ret :: List.replicate (m + 5) .step) =
      (main cfg w).take n ++
        [.usb_release_interface, .usb_close, .MQTTClient_disconnect 10000,
         .MQTTClient_destroy, .exit ret] ∧
    (run cfg w (List.replicate n .step ++ .deliver sig ret ::
      List.replicate (m + 5) .step)).count .usb_close = 1 ∧
    (run cfg w (List.replicate n .step ++ .deliver sig ret ::
      List.replicate (m + 5) .step)).count .MQTTClient_destroy = 1 := by
  have hrun_eq := execute_steps_then_signal sig ret m [] n (main cfg w) [] hn hrun
    (Or.inr hinst)
  have hquiet := main_quiet_of_claimed cfg w sig hclaim (List.mem_of_mem_take hinst)
  have htake : ((main cfg w).take n).all (fun e => !e.releases) = true := by
    rw [List.all_eq_true] at hquiet ⊢
    exact fun e he => hquiet e (List.mem_of_mem_take he)
  unfold run
  rw [hrun_eq]
  refine ⟨rfl, ?_, ?_⟩
  · rw [List.count_append, count_eq_zero_of_all .usb_close rfl htake]
    rfl
  · rw [List.count_append, count_eq_zero_of_all .MQTTClient_destroy rfl htake]
    rfl

theorem single_signal_releases_once_witness :
    (world_ok.claim_ret = 0 ∧ 12 ≤ (main cfg_plain world_ok).length ∧
      (∀ e ∈ (main cfg_plain world_ok).take 12, e.ends = false) ∧
      Event.signal .SIGINT ∈ (main cfg_plain world_ok).take 12) ∧
    run cfg_plain world_ok
        (List.replicate 12 .step ++ .deliver .SIGINT 0 :: List.replicate (0 + 5) .step) =
      (main cfg_plain world_ok).take 12 ++
        [.usb_release_interface, .usb_close, .MQTTClient_disconnect 10000,
         .MQTTClient_destroy, .exit 0] ∧
    (run cfg_plain world_ok
      (List.replicate 12 .step ++ .deliver .SIGINT 0 ::
        List.replicate (0 + 5) .step)).count .usb_close = 1 ∧
    (run cfg_plain world_ok
      (List.replicate 12 .step ++ .deliver .SIGINT 0 ::
        List.replicate (0 + 5) .step)).count .MQTTClient_destroy = 1 :=
  ⟨⟨by decide, by decide, by decide, by decide⟩,
   single_signal_releases_once cfg_plain world_ok .SIGINT 0 12 0
     (by decide) (by decide) (by decide) (by decide)⟩

/-- C7 refuted as stated: when the claim of interface 0 fails and SIGTERM
arrives during the cleanup, after `main` has destroyed the broker client, the
handler closes the device a second time and destroys the broker client a
second time; and when SIGINT arrives while the handler started by SIGTERM has
already closed the device, the device is closed a second time. -/
theorem release_runs_twice :
    (run cfg_plain world_busy
      (List.replicate 13 .step ++ .deliver .SIGTERM 0 :: List.replicate 5 .step)).count
        .usb_close = 2 ∧
    (run cfg_plain world_busy
      (List.replicate 13 .step ++ .deliver .SIGTERM 0 :: List.replicate 5 .step)).count
        .MQTTClient_destroy = 2 ∧
    (run cfg_plain world_ok
      (List.replicate 10 .step ++ .deliver .SIGTERM 0 :: .step :: .step ::
        .deliver .SIGINT 0 :: List.replicate 5 .step)).count .usb_close = 2 := by
  decide

end AirSensor
